import Mathlib

/-!
Shallow embedding of the dataset-preparation pipeline of the chemCPA
preprocessing notebooks: the LINCS SMILES-integration notebook (left merge
with the reference table, sentinel/dose/replicate/RDKit validity filters,
identity-based train/test/ood split, shrink-back fixup, random split) and
the batch embedding-computation notebook (per-dataset try/except loop).

Tables are `List`s of row records; pandas boolean-mask filters are
`List.filter`; `Series.isin` is `List.any` over a `==` test; `value_counts`
thresholds turn into explicit length counts of filtered sublists.
-/

set_option maxHeartbeats 1000000

/-- An observation row of `adata.obs` before the merge: join key `pert_id`,
covariate `cell_id`, and the dose value `pert_dose` (numeric; the sentinel
for an invalid dose is -666). -/
structure ObsRow where
  pert_id : String
  cell_id : String
  pert_dose : Int
deriving DecidableEq, Repr

/-- A row of the reference table `reference_df`, restricted to the columns
`pert_id` and `canonical_smiles`. -/
structure RefRow where
  pert_id : String
  canonical_smiles : String
deriving DecidableEq, Repr

/-- An observation row after the left merge: the `canonical_smiles` column
attached by the merge, `none` where the join key matched no reference row. -/
structure MergedRow extends ObsRow where
  canonical_smiles : Option String
deriving DecidableEq, Repr

/-- An observation row after `astype('str')`: `canonical_smiles` is a plain
string (a missing value has become the literal string "nan"). -/
structure SRow extends ObsRow where
  canonical_smiles : String
deriving DecidableEq, Repr

/-- `Series.isin`: does the value `s` occur in the list `l`. -/
def isin (s : String) (l : List String) : Bool :=
  l.any (fun x => x == s)

/-- Pandas left merge `adata.obs.reset_index().merge(reference_df, how="left")`
on the shared column `pert_id`: each left row is paired with every matching
reference row (in order), or kept once with a missing `canonical_smiles`
when no reference row matches. -/
def mergeRow (ref : List RefRow) (o : ObsRow) : List MergedRow :=
  match ref.filter (fun m => m.pert_id == o.pert_id) with
  | [] => [{ toObsRow := o, canonical_smiles := none }]
  | ms => ms.map (fun m => { toObsRow := o, canonical_smiles := some m.canonical_smiles })

/-- The merge over the whole observation table. -/
def leftMerge (obs : List ObsRow) (ref : List RefRow) : List MergedRow :=
  obs.flatMap (mergeRow ref)

/-- `astype('str')` on one cell: a missing value prints as "nan". -/
def smiles_str : Option String → String
  | none => "nan"
  | some s => s

/-- `astype('str')` on one merged row. -/
def toStrRow (m : MergedRow) : SRow :=
  { toObsRow := m.toObsRow, canonical_smiles := smiles_str m.canonical_smiles }

/-- The sentinel test `canonical_smiles.isin(['-666', 'restricted', 'nan'])`. -/
def invalid_smiles (r : SRow) : Bool :=
  isin r.canonical_smiles ["-666", "restricted", "nan"]

/-- `adata = adata[~invalid_smiles]`: drop rows whose SMILES is a sentinel. -/
def filterInvalidSmiles (rows : List SRow) : List SRow :=
  rows.filter (fun r => !(invalid_smiles r))

/-- `cond = adata.obs.pert_dose.isin([-666]); adata = adata[~cond]`. -/
def filterDose (rows : List SRow) : List SRow :=
  rows.filter (fun r => !(r.pert_dose == -666))

/-- `value_counts` of one SMILES string: how many rows carry it. -/
def countSmiles (rows : List SRow) (s : String) : Nat :=
  (rows.filter (fun r => r.canonical_smiles == s)).length

/-- `drugs_validation = value_counts() < 6; valid_drugs = index[~drugs_validation]`:
the distinct SMILES whose replicate count is at least 6. -/
def valid_drugs (rows : List SRow) : List String :=
  ((rows.map (fun r => r.canonical_smiles)).dedup).filter
    (fun s => !(countSmiles rows s < 6))

/-- `cond = canonical_smiles.isin(valid_drugs); adata = adata[cond]`. -/
def filterReplicates (rows : List SRow) : List SRow :=
  rows.filter (fun r => isin r.canonical_smiles (valid_drugs rows))

/-- `remove_invalid_smiles(..., return_condition=True)` followed by
`adata = adata[cond]`: the notebook builds `_validation_map` as
`dict(zip(unique_drugs, unique_drugs.apply(check_smiles)))` and looks each
row's SMILES up in it, which is exactly applying `check_smiles` to each
row's own SMILES string. `check_smiles` (RDKit parse + sanitize) is an
external library call, taken as a parameter. -/
def removeInvalidSmilesRows (check_smiles : String → Bool) (rows : List SRow) : List SRow :=
  rows.filter (fun r => check_smiles r.canonical_smiles)

/-- The full reference-join and validity filter, in notebook order:
left merge, `astype('str')`, sentinel filter, dose filter, replicate-count
filter, RDKit validity filter. -/
def pipeline (check_smiles : String → Bool) (obs : List ObsRow) (ref : List RefRow) : List SRow :=
  removeInvalidSmilesRows check_smiles
    (filterReplicates
      (filterDose
        (filterInvalidSmiles
          ((leftMerge obs ref).map toStrRow))))

/-- An observation row with its `split` label. -/
structure SplitRow extends SRow where
  split : String
deriving DecidableEq, Repr

/-- An observation row with both the `split` label and the fixed-up
`split1` label. -/
structure Split1Row extends SplitRow where
  split1 : String
deriving DecidableEq, Repr

/-- One masked column assignment `adata.obs.loc[mask, 'split'] = v`. -/
def setSplitWhere (p : SplitRow → Bool) (v : String) (rows : List SplitRow) : List SplitRow :=
  rows.map (fun r => if p r then { r with split := v } else r)

/-- The identity-based split assignment of the notebook:
`adata.obs['split'] = 'train'`, then
`loc[canonical_smiles.isin(drugs_val), 'split'] = 'test'`, then
`loc[canonical_smiles.isin(drugs_test), 'split'] = 'ood'`.
`drugs_val` and `drugs_test` are the outputs of the two `train_test_split`
calls over `unique_drugs` (an external seeded RNG), taken as parameters. -/
def assignSplit (drugs_val drugs_test : List String) (rows : List SRow) : List SplitRow :=
  setSplitWhere (fun r => isin r.canonical_smiles drugs_test) "ood"
    (setSplitWhere (fun r => isin r.canonical_smiles drugs_val) "test"
      (rows.map (fun r => { toSRow := r, split := "train" })))

/-- The per-identity label the sequential assignment realises: "ood" wins
over "test" wins over "train", as the later `loc` assignments overwrite. -/
def splitLabel (drugs_val drugs_test : List String) (s : String) : String :=
  if isin s drugs_test then "ood" else if isin s drugs_val then "test" else "train"

/-- The guard `if 'split' not in list(adata.obs)`: when a `split` column is
already present (modelled as `some` of its value list, aligned with the
rows), the notebook performs no new partition and the existing values are
kept; only when it is absent is the identity-based split computed. -/
def addSplitIfMissing (drugs_val drugs_test : List String) (rows : List SRow)
    (splitCol : Option (List String)) : List SplitRow :=
  match splitCol with
  | some vals => (rows.zip vals).map (fun rv => { toSRow := rv.1, split := rv.2 })
  | none => assignSplit drugs_val drugs_test rows

/-- `pert_count_treshold = 5` (spelling as in the notebook). -/
def pert_count_treshold : Nat := 5

/-- `cov_count_treshold = 20`. -/
def cov_count_treshold : Nat := 20

/-- `cond_test = adata.obs.split.isin(['test'])`. -/
def cond_test (r : SplitRow) : Bool :=
  isin r.split ["test"]

/-- `adata.obs.loc[cond_test]`: the rows of the (pre-fixup) test split. -/
def testRows (rows : List SplitRow) : List SplitRow :=
  rows.filter cond_test

/-- `adata.obs.loc[cond_test, 'pert_id'].value_counts()` at one `pert_id`. -/
def pert_count (rows : List SplitRow) (p : String) : Nat :=
  ((testRows rows).filter (fun r => r.pert_id == p)).length

/-- `adata.obs.loc[cond_test, 'cell_id'].value_counts()` at one `cell_id`. -/
def cov_count (rows : List SplitRow) (c : String) : Nat :=
  ((testRows rows).filter (fun r => r.cell_id == c)).length

/-- `pert_id_neg.index[pert_id_neg]`: the distinct `pert_id`s occurring in
the test split whose test count is under `pert_count_treshold`. -/
def pert_id_neg (rows : List SplitRow) : List String :=
  (((testRows rows).map (fun r => r.pert_id)).dedup).filter
    (fun p => pert_count rows p < pert_count_treshold)

/-- `cov_id_neg.index[cov_id_neg]`: the distinct `cell_id`s occurring in
the test split whose test count is under `cov_count_treshold`. -/
def cov_id_neg (rows : List SplitRow) : List String :=
  (((testRows rows).map (fun r => r.cell_id)).dedup).filter
    (fun c => cov_count rows c < cov_count_treshold)

/-- `cond = cond_test & pert_id.isin(pert_id_neg.index[pert_id_neg])`
followed by `cond |= cond_test & cell_id.isin(cov_id_neg.index[cov_id_neg])`:
the shrink-back mask, a union of the two per-axis deficiency conditions,
each conjoined with membership in the test split. -/
def shrink_cond (rows : List SplitRow) (r : SplitRow) : Bool :=
  (cond_test r && isin r.pert_id (pert_id_neg rows)) ||
  (cond_test r && isin r.cell_id (cov_id_neg rows))

/-- `adata.obs['split1'] = adata.obs.split.copy()` followed by
`adata.obs.loc[cond, 'split1'] = 'train'`: the shrink-back fixup writes a
new `split1` column and leaves `split` untouched. -/
def addSplit1 (rows : List SplitRow) : List Split1Row :=
  rows.map (fun r =>
    { toSplitRow := r, split1 := if shrink_cond rows r then "train" else r.split })

/-- Accumulated state of the batch embedding-computation loop: for each
dataset attempted, its name and whether its computation succeeded, plus the
messages written via `tqdm.write`. -/
structure BatchState where
  results : List (String × Bool)
  logs : List String
deriving DecidableEq, Repr

/-- Did a computation succeed. -/
def run_ok (r : Except String Unit) : Bool :=
  match r with
  | Except.ok _ => true
  | Except.error _ => false

/-- One iteration of the loop `for dataset, smiles_key in tqdm(datasets)`:
`compute_rdkit_embeddings` (external, taken as a parameter keyed by dataset
name and SMILES key) is attempted inside `try`; on an exception the
`except` branch writes `f"Error processing {dataset}: {str(e)}"` and the
loop moves on. -/
def process_dataset (compute : String → String → Except String Unit)
    (st : BatchState) (d : String × String) : BatchState :=
  match compute d.1 d.2 with
  | Except.ok _ => { results := st.results ++ [(d.1, true)], logs := st.logs }
  | Except.error e =>
      { results := st.results ++ [(d.1, false)],
        logs := st.logs ++ ["Error processing " ++ d.1 ++ ": " ++ e] }

/-- The whole batch loop over the dataset list. -/
def runBatch (compute : String → String → Except String Unit)
    (ds : List (String × String)) : BatchState :=
  ds.foldl (process_dataset compute) ⟨[], []⟩

/-! ### Helper lemmas -/

theorem isin_iff {s : String} {l : List String} : isin s l = true ↔ s ∈ l := by
  simp [isin]

theorem mem_setSplitWhere {p : SplitRow → Bool} {v : String} {rows : List SplitRow}
    {x : SplitRow} :
    x ∈ setSplitWhere p v rows ↔
      ∃ r ∈ rows, x = if p r then { r with split := v } else r := by
  constructor
  · intro hx
    rw [setSplitWhere, List.mem_map] at hx
    obtain ⟨r, hr, hxr⟩ := hx
    exact ⟨r, hr, hxr.symm⟩
  · intro hx
    obtain ⟨r, hr, hxr⟩ := hx
    rw [setSplitWhere, List.mem_map]
    exact ⟨r, hr, hxr.symm⟩

theorem mem_assignSplit {dv dt : List String} {rows : List SRow} {x : SplitRow} :
    x ∈ assignSplit dv dt rows ↔
      ∃ r ∈ rows, x = { toSRow := r, split := splitLabel dv dt r.canonical_smiles } := by
  constructor
  · intro hx
    rw [assignSplit, mem_setSplitWhere] at hx
    obtain ⟨y, hy, hxy⟩ := hx
    rw [mem_setSplitWhere] at hy
    obtain ⟨z, hz, hyz⟩ := hy
    rw [List.mem_map] at hz
    obtain ⟨r, hr, hzr⟩ := hz
    refine ⟨r, hr, ?_⟩
    subst hzr hyz hxy
    unfold splitLabel
    by_cases hdv : isin r.canonical_smiles dv <;>
      by_cases hdt : isin r.canonical_smiles dt <;>
        simp [hdv, hdt]
  · intro hx
    obtain ⟨r, hr, hxr⟩ := hx
    rw [assignSplit, mem_setSplitWhere]
    refine ⟨if isin r.canonical_smiles dv then
        { toSRow := r, split := "test" } else { toSRow := r, split := "train" },
      ?_, ?_⟩
    · rw [mem_setSplitWhere]
      refine ⟨{ toSRow := r, split := "train" }, List.mem_map_of_mem _ hr, ?_⟩
      by_cases hdv : isin r.canonical_smiles dv <;> simp [hdv]
    · subst hxr
      unfold splitLabel
      by_cases hdv : isin r.canonical_smiles dv <;>
        by_cases hdt : isin r.canonical_smiles dt <;>
          simp [hdv, hdt]

theorem cond_test_iff {r : SplitRow} : cond_test r = true ↔ r.split = "test" := by
  constructor
  · intro h
    have hm := isin_iff.mp h
    simpa using hm
  · intro h
    apply isin_iff.mpr
    simp [h]

theorem mem_testRows {rows : List SplitRow} {r : SplitRow} :
    r ∈ testRows rows ↔ r ∈ rows ∧ r.split = "test" := by
  rw [testRows, List.mem_filter, cond_test_iff]

theorem mem_pert_id_neg {rows : List SplitRow} {p : String} :
    p ∈ pert_id_neg rows ↔
      (∃ r ∈ testRows rows, r.pert_id = p) ∧ pert_count rows p < pert_count_treshold := by
  simp [pert_id_neg, List.mem_filter, List.mem_dedup, List.mem_map]

theorem mem_cov_id_neg {rows : List SplitRow} {c : String} :
    c ∈ cov_id_neg rows ↔
      (∃ r ∈ testRows rows, r.cell_id = c) ∧ cov_count rows c < cov_count_treshold := by
  simp [cov_id_neg, List.mem_filter, List.mem_dedup, List.mem_map]

theorem shrink_cond_false_of_not_test {rows : List SplitRow} {r : SplitRow}
    (h : ¬ r.split = "test") : shrink_cond rows r = false := by
  have hct : cond_test r = false := by
    rw [← Bool.not_eq_true, cond_test_iff]
    exact h
  simp [shrink_cond, hct]

theorem shrink_cond_iff {rows : List SplitRow} {r : SplitRow} (hr : r ∈ rows) :
    shrink_cond rows r = true ↔
      r.split = "test" ∧ (pert_count rows r.pert_id < pert_count_treshold ∨
        cov_count rows r.cell_id < cov_count_treshold) := by
  constructor
  · intro hc
    rw [shrink_cond, Bool.or_eq_true, Bool.and_eq_true, Bool.and_eq_true] at hc
    rcases hc with ⟨hct, hp⟩ | ⟨hct, hcv⟩
    · rw [isin_iff, mem_pert_id_neg] at hp
      exact ⟨cond_test_iff.mp hct, Or.inl hp.2⟩
    · rw [isin_iff, mem_cov_id_neg] at hcv
      exact ⟨cond_test_iff.mp hct, Or.inr hcv.2⟩
  · intro hdef
    have hct : cond_test r = true := cond_test_iff.mpr hdef.1
    have hrt : r ∈ testRows rows := mem_testRows.mpr ⟨hr, hdef.1⟩
    rw [shrink_cond, Bool.or_eq_true, Bool.and_eq_true, Bool.and_eq_true]
    rcases hdef.2 with hp | hcv
    · exact Or.inl ⟨hct, isin_iff.mpr (mem_pert_id_neg.mpr ⟨⟨r, hrt, rfl⟩, hp⟩)⟩
    · exact Or.inr ⟨hct, isin_iff.mpr (mem_cov_id_neg.mpr ⟨⟨r, hrt, rfl⟩, hcv⟩)⟩

theorem addSplit1_mem {rows : List SplitRow} {x : Split1Row} :
    x ∈ addSplit1 rows ↔ ∃ r ∈ rows,
      x = { toSplitRow := r, split1 := if shrink_cond rows r then "train" else r.split } := by
  constructor
  · intro hx
    rw [addSplit1, List.mem_map] at hx
    obtain ⟨r, hr, hxr⟩ := hx
    exact ⟨r, hr, hxr.symm⟩
  · intro hx
    obtain ⟨r, hr, hxr⟩ := hx
    rw [addSplit1, List.mem_map]
    exact ⟨r, hr, hxr.symm⟩

/-! ### Concrete example tables used by witnesses and counterexamples -/

/-- Shorthand constructor for a post-filter observation row. -/
def mkSRow (p c : String) (d : Int) (s : String) : SRow :=
  { toObsRow := { pert_id := p, cell_id := c, pert_dose := d }, canonical_smiles := s }

/-- Shorthand constructor for a labelled observation row. -/
def mkSplitRow (p c : String) (d : Int) (s lbl : String) : SplitRow :=
  { toSRow := mkSRow p c d s, split := lbl }

/-- A small labelled table: one "ood" row, one "test" row (with test-group
perturbation count 1, under the threshold of 5), one "train" row. -/
def exampleSplitRows : List SplitRow :=
  [mkSplitRow "p1" "c1" 1 "S1" "ood",
   mkSplitRow "p2" "c1" 1 "S2" "test",
   mkSplitRow "p3" "c2" 2 "S3" "train"]

/-- A small unlabelled table with two identities. -/
def exampleSRows : List SRow :=
  [mkSRow "p1" "c1" 1 "A", mkSRow "p2" "c1" 1 "B"]

/-! ### C1: identity-based split is a function of the SMILES identity -/

/-- C1: under the identity-based split, every row's label equals
`splitLabel` applied to its canonical SMILES identity alone, the label is
always one of train/test/ood, and any two rows sharing an identity carry
the same label, so no identity appears in more than one of the three
groups. -/
theorem C1_split_determined_by_identity (dv dt : List String) (rows : List SRow)
    (x : SplitRow) (hx : x ∈ assignSplit dv dt rows) :
    x.split = splitLabel dv dt x.canonical_smiles
    ∧ (x.split = "train" ∨ x.split = "test" ∨ x.split = "ood")
    ∧ ∀ y ∈ assignSplit dv dt rows,
        y.canonical_smiles = x.canonical_smiles → y.split = x.split := by
  obtain ⟨r, hr, hxr⟩ := mem_assignSplit.mp hx
  subst hxr
  refine ⟨rfl, ?_, ?_⟩
  · by_cases h1 : isin r.canonical_smiles dt <;>
      by_cases h2 : isin r.canonical_smiles dv <;>
        simp [splitLabel, h1, h2]
  · intro y hy hsy
    obtain ⟨r2, hr2, hyr⟩ := mem_assignSplit.mp hy
    subst hyr
    exact congrArg (splitLabel dv dt) hsy

/-- Witness for C1 at a concrete table: the row with identity "B" lands in
the "test" group of the split with `drugs_val = ["B"]`, `drugs_test = ["C"]`. -/
theorem C1_split_determined_by_identity_witness :
    mkSplitRow "p2" "c1" 1 "B" "test" ∈ assignSplit ["B"] ["C"] exampleSRows
    ∧ (mkSplitRow "p2" "c1" 1 "B" "test").split
        = splitLabel ["B"] ["C"] (mkSplitRow "p2" "c1" 1 "B" "test").canonical_smiles :=
  ⟨by decide,
   (C1_split_determined_by_identity ["B"] ["C"] exampleSRows
     (mkSplitRow "p2" "c1" 1 "B" "test") (by decide)).1⟩

/-! ### C8, C9: frame effects of the shrink-back fixup -/

theorem map_toSplitRow_of_section {l : List SplitRow} {f : SplitRow → Split1Row}
    (hf : ∀ r, (f r).toSplitRow = r) :
    (l.map f).map (fun x => x.toSplitRow) = l := by
  induction l with
  | nil => rfl
  | cons a t ih => simp [hf, ih]

/-- C8: the shrink-back fixup only writes the new `split1` column: every
pre-existing column, the `split` column included, is returned unchanged,
and each row's `split1` is either its `split` value or "train". -/
theorem C8_split_column_untouched (rows : List SplitRow) :
    (addSplit1 rows).map (fun x => x.toSplitRow) = rows
    ∧ ∀ x ∈ addSplit1 rows, x.split1 = x.split ∨ x.split1 = "train" := by
  constructor
  · exact map_toSplitRow_of_section (fun r => rfl)
  · intro x hx
    obtain ⟨r, hr, hxr⟩ := addSplit1_mem.mp hx
    subst hxr
    by_cases hc : shrink_cond rows r = true
    · right
      simp [hc]
    · left
      rw [Bool.not_eq_true] at hc
      simp [hc]

/-- Witness for C8 on the concrete example table. -/
theorem C8_split_column_untouched_witness :
    ((addSplit1 exampleSplitRows).map (fun x => x.toSplitRow) = exampleSplitRows)
    ∧ (({ toSplitRow := mkSplitRow "p1" "c1" 1 "S1" "ood", split1 := "ood" } : Split1Row)
        ∈ addSplit1 exampleSplitRows)
    ∧ (({ toSplitRow := mkSplitRow "p1" "c1" 1 "S1" "ood", split1 := "ood" } : Split1Row).split1
          = ({ toSplitRow := mkSplitRow "p1" "c1" 1 "S1" "ood", split1 := "ood" } : Split1Row).split
        ∨ ({ toSplitRow := mkSplitRow "p1" "c1" 1 "S1" "ood", split1 := "ood" } : Split1Row).split1
          = "train") :=
  ⟨(C8_split_column_untouched exampleSplitRows).1, by decide,
   (C8_split_column_untouched exampleSplitRows).2 _ (by decide)⟩

/-- C9: the shrink-back fixup can relabel only rows of the pre-fixup "test"
group: a row whose `split` is not "test" (in particular an "ood" or "train"
row) keeps exactly its `split` value in `split1`, because the relabeling
condition is conjoined with `cond_test`. -/
theorem C9_only_test_rows_relabeled (rows : List SplitRow) (x : Split1Row)
    (hx : x ∈ addSplit1 rows) (hnt : ¬ x.split = "test") :
    x.split1 = x.split := by
  obtain ⟨r, hr, hxr⟩ := addSplit1_mem.mp hx
  subst hxr
  have hc : shrink_cond rows r = false := shrink_cond_false_of_not_test hnt
  simp [hc]

/-- Witness for C9: the "ood" row of the example table keeps its label. -/
theorem C9_only_test_rows_relabeled_witness :
    (({ toSplitRow := mkSplitRow "p1" "c1" 1 "S1" "ood", split1 := "ood" } : Split1Row)
        ∈ addSplit1 exampleSplitRows)
    ∧ ¬ (({ toSplitRow := mkSplitRow "p1" "c1" 1 "S1" "ood", split1 := "ood" } : Split1Row).split = "test")
    ∧ ({ toSplitRow := mkSplitRow "p1" "c1" 1 "S1" "ood", split1 := "ood" } : Split1Row).split1
        = ({ toSplitRow := mkSplitRow "p1" "c1" 1 "S1" "ood", split1 := "ood" } : Split1Row).split :=
  ⟨by decide, by decide,
   C9_only_test_rows_relabeled exampleSplitRows _ (by decide) (by decide)⟩

/-! ### C2: the shrink-back fixup acts on the test group only -/

/-- C2 counterexample: the example table's single "ood" row has
per-category counts 1 within the ood group along both the perturbation and
the covariate axis, under both thresholds, yet the fixup leaves its
`split1` at "ood": no row with pre-fixup label "ood" is ever relabeled, so
the claimed independent fixup of the ood group does not happen. -/
theorem C2_counterexample_ood_group_not_fixed :
    (((exampleSplitRows.filter (fun r => r.split == "ood")).filter
        (fun r => r.pert_id == "p1")).length < pert_count_treshold)
    ∧ (((exampleSplitRows.filter (fun r => r.split == "ood")).filter
        (fun r => r.cell_id == "c1")).length < cov_count_treshold)
    ∧ (({ toSplitRow := mkSplitRow "p1" "c1" 1 "S1" "ood", split1 := "ood" } : Split1Row)
        ∈ addSplit1 exampleSplitRows)
    ∧ ((addSplit1 exampleSplitRows).all
        (fun x => !(x.split == "ood" && x.split1 == "train")) = true) := by
  decide

/-- C2 (amended): the shrink-back fixup is applied only to the test group:
per-category counts are computed once, within the pre-fixup test group,
along the perturbation-id axis and the covariate (cell-id) axis, every test
row whose category count falls under the axis-specific threshold is
relabeled back to train, and rows of the ood group are left unchanged. -/
theorem C2_shrinkback_test_only (rows : List SplitRow) (x : Split1Row)
    (hx : x ∈ addSplit1 rows) :
    (x.split = "test" →
      (pert_count rows x.pert_id < pert_count_treshold ∨
        cov_count rows x.cell_id < cov_count_treshold) → x.split1 = "train")
    ∧ (x.split = "ood" → x.split1 = "ood") := by
  obtain ⟨r, hr, hxr⟩ := addSplit1_mem.mp hx
  subst hxr
  constructor
  · intro hts hdef
    have hc : shrink_cond rows r = true := (shrink_cond_iff hr).mpr ⟨hts, hdef⟩
    simp [hc]
  · intro hood
    have hns : ¬ r.split = "test" := by
      intro h
      rw [h] at hood
      exact absurd hood (by decide)
    have hc : shrink_cond rows r = false := shrink_cond_false_of_not_test hns
    simp only [hc]
    simpa using hood

/-- Witness for the amended C2: the deficient test row of the example table
is relabeled to "train". -/
theorem C2_shrinkback_test_only_witness :
    (({ toSplitRow := mkSplitRow "p2" "c1" 1 "S2" "test", split1 := "train" } : Split1Row)
        ∈ addSplit1 exampleSplitRows)
    ∧ ({ toSplitRow := mkSplitRow "p2" "c1" 1 "S2" "test", split1 := "train" } : Split1Row).split = "test"
    ∧ pert_count exampleSplitRows "p2" < pert_count_treshold
    ∧ ({ toSplitRow := mkSplitRow "p2" "c1" 1 "S2" "test", split1 := "train" } : Split1Row).split1 = "train" :=
  ⟨by decide, by decide, by decide,
   (C2_shrinkback_test_only exampleSplitRows _ (by decide)).1 (by decide) (Or.inl (by decide))⟩

/-! ### C3: relabeling condition is a one-shot union of the two deficiencies -/

/-- C3: a row is relabeled (its `split1` differs from its `split`) exactly
when it belongs to the pre-fixup test group and its perturbation-id count
or its covariate count within that group is under the respective threshold;
both counts are the `pert_count`/`cov_count` of the pre-fixup table `rows`,
computed once — the fixup is a single pass and the thresholds are not
re-checked against the relabeled table. -/
theorem C3_relabel_iff_union_of_deficiencies (rows : List SplitRow) (x : Split1Row)
    (hx : x ∈ addSplit1 rows) :
    x.split1 ≠ x.split ↔
      x.split = "test" ∧ (pert_count rows x.pert_id < pert_count_treshold ∨
        cov_count rows x.cell_id < cov_count_treshold) := by
  obtain ⟨r, hr, hxr⟩ := addSplit1_mem.mp hx
  subst hxr
  constructor
  · intro hne
    by_cases hc : shrink_cond rows r = true
    · exact (shrink_cond_iff hr).mp hc
    · rw [Bool.not_eq_true] at hc
      simp [hc] at hne
  · intro hdef
    have hc : shrink_cond rows r = true := (shrink_cond_iff hr).mpr hdef
    have hts := hdef.1
    simp only [hc]
    simp only [if_true]
    intro hcontra
    rw [hts] at hcontra
    exact absurd hcontra (by decide)

/-- Witness for C3: the deficient test row of the example table is
relabeled, and the equivalence certifies both directions on it. -/
theorem C3_relabel_iff_union_of_deficiencies_witness :
    (({ toSplitRow := mkSplitRow "p2" "c1" 1 "S2" "test", split1 := "train" } : Split1Row)
        ∈ addSplit1 exampleSplitRows)
    ∧ (({ toSplitRow := mkSplitRow "p2" "c1" 1 "S2" "test", split1 := "train" } : Split1Row).split1
        ≠ ({ toSplitRow := mkSplitRow "p2" "c1" 1 "S2" "test", split1 := "train" } : Split1Row).split ↔
      ({ toSplitRow := mkSplitRow "p2" "c1" 1 "S2" "test", split1 := "train" } : Split1Row).split = "test"
      ∧ (pert_count exampleSplitRows "p2" < pert_count_treshold ∨
          cov_count exampleSplitRows "c1" < cov_count_treshold)) :=
  ⟨by decide,
   C3_relabel_iff_union_of_deficiencies exampleSplitRows _ (by decide)⟩

/-! ### C10: an existing split column suppresses the new partition -/

theorem zipSplit_map_split : ∀ (rows : List SRow) (vals : List String),
    rows.length = vals.length →
    ((rows.zip vals).map (fun rv => ({ toSRow := rv.1, split := rv.2 } : SplitRow))).map
      (fun x => x.split) = vals := by
  intro rows
  induction rows with
  | nil =>
    intro vals h
    cases vals with
    | nil => rfl
    | cons v vs => simp at h
  | cons r rs ih =>
    intro vals h
    cases vals with
    | nil => simp at h
    | cons v vs =>
      simp only [List.zip_cons_cons, List.map_cons]
      rw [ih vs (by simpa using h)]

theorem zipSplit_map_toSRow : ∀ (rows : List SRow) (vals : List String),
    rows.length = vals.length →
    ((rows.zip vals).map (fun rv => ({ toSRow := rv.1, split := rv.2 } : SplitRow))).map
      (fun x => x.toSRow) = rows := by
  intro rows
  induction rows with
  | nil =>
    intro vals h
    cases vals with
    | nil => rfl
    | cons v vs => simp at h
  | cons r rs ih =>
    intro vals h
    cases vals with
    | nil => simp at h
    | cons v vs =>
      simp only [List.zip_cons_cons, List.map_cons]
      rw [ih vs (by simpa using h)]

/-- C10: when a `split` column is already present on load, the operation
performs no new partition: the output `split` values are exactly the
existing ones, the result does not depend on the drug partition at all, and
the remaining columns are carried through unchanged. -/
theorem C10_existing_split_carried_through (dv dt dv2 dt2 : List String)
    (rows : List SRow) (vals : List String) (h : rows.length = vals.length) :
    (addSplitIfMissing dv dt rows (some vals)).map (fun x => x.split) = vals
    ∧ addSplitIfMissing dv dt rows (some vals) = addSplitIfMissing dv2 dt2 rows (some vals)
    ∧ (addSplitIfMissing dv dt rows (some vals)).map (fun x => x.toSRow) = rows :=
  ⟨zipSplit_map_split rows vals h, rfl, zipSplit_map_toSRow rows vals h⟩

/-- Witness for C10 on the concrete example table with a pre-existing
split column. -/
theorem C10_existing_split_carried_through_witness :
    exampleSRows.length = ["ood", "train"].length
    ∧ (addSplitIfMissing ["B"] ["C"] exampleSRows (some ["ood", "train"])).map
        (fun x => x.split) = ["ood", "train"] :=
  ⟨by decide,
   (C10_existing_split_carried_through ["B"] ["C"] [] [] exampleSRows
     ["ood", "train"] (by decide)).1⟩

/-! ### C4: validity of every retained row -/

theorem countSmiles_filter_prop (q : String → Bool) (rows : List SRow) (s : String)
    (hq : q s = true) :
    countSmiles (rows.filter (fun r => q r.canonical_smiles)) s = countSmiles rows s := by
  unfold countSmiles
  rw [List.filter_filter]
  apply congrArg List.length
  apply List.filter_congr
  intro a _
  by_cases hrs : (a.canonical_smiles == s) = true
  · have hcs : a.canonical_smiles = s := by simpa using hrs
    simp [hrs, hcs, hq]
  · rw [Bool.not_eq_true] at hrs
    simp [hrs]

theorem mem_valid_drugs {rows : List SRow} {s : String} :
    s ∈ valid_drugs rows ↔
      s ∈ rows.map (fun r => r.canonical_smiles) ∧ 6 ≤ countSmiles rows s := by
  simp [valid_drugs, List.mem_filter, List.mem_dedup, Nat.not_lt]

/-- C4: every row retained by the reference-join and validity filter has a
canonical SMILES that is none of the sentinel markers '-666', 'restricted',
'nan' (a null post-join value becomes exactly the string "nan", so non-null
is covered), passes the RDKit validity check, belongs to an identity group
with at least 6 rows in the retained table, and has a dose different from
the sentinel -666. -/
theorem C4_retained_rows_valid (check_smiles : String → Bool) (obs : List ObsRow)
    (ref : List RefRow) (x : SRow) (hx : x ∈ pipeline check_smiles obs ref) :
    x.canonical_smiles ∉ (["-666", "restricted", "nan"] : List String)
    ∧ check_smiles x.canonical_smiles = true
    ∧ 6 ≤ countSmiles (pipeline check_smiles obs ref) x.canonical_smiles
    ∧ x.pert_dose ≠ -666 := by
  have hx4 := hx
  rw [pipeline, removeInvalidSmilesRows, List.mem_filter] at hx4
  obtain ⟨hx3, hchk⟩ := hx4
  rw [filterReplicates, List.mem_filter] at hx3
  obtain ⟨hx2, hrep⟩ := hx3
  rw [filterDose, List.mem_filter] at hx2
  obtain ⟨hx1, hdose⟩ := hx2
  rw [filterInvalidSmiles, List.mem_filter] at hx1
  obtain ⟨hx0, hinv⟩ := hx1
  refine ⟨?_, hchk, ?_, ?_⟩
  · intro hmem
    have hisin : invalid_smiles x = true := isin_iff.mpr hmem
    rw [hisin] at hinv
    exact absurd hinv (by decide)
  · have hvd : x.canonical_smiles ∈
        valid_drugs (filterDose (filterInvalidSmiles ((leftMerge obs ref).map toStrRow))) :=
      isin_iff.mp hrep
    have h6 : 6 ≤ countSmiles
        (filterDose (filterInvalidSmiles ((leftMerge obs ref).map toStrRow)))
        x.canonical_smiles := (mem_valid_drugs.mp hvd).2
    have h32 : countSmiles
        (filterReplicates (filterDose (filterInvalidSmiles ((leftMerge obs ref).map toStrRow))))
        x.canonical_smiles
        = countSmiles (filterDose (filterInvalidSmiles ((leftMerge obs ref).map toStrRow)))
            x.canonical_smiles :=
      countSmiles_filter_prop
        (fun s => isin s (valid_drugs (filterDose (filterInvalidSmiles ((leftMerge obs ref).map toStrRow)))))
        (filterDose (filterInvalidSmiles ((leftMerge obs ref).map toStrRow)))
        x.canonical_smiles hrep
    have h43 : countSmiles (pipeline check_smiles obs ref) x.canonical_smiles
        = countSmiles
            (filterReplicates (filterDose (filterInvalidSmiles ((leftMerge obs ref).map toStrRow))))
            x.canonical_smiles :=
      countSmiles_filter_prop check_smiles
        (filterReplicates (filterDose (filterInvalidSmiles ((leftMerge obs ref).map toStrRow))))
        x.canonical_smiles hchk
    rw [h43, h32]
    exact h6
  · intro h
    rw [h] at hdose
    exact absurd hdose (by decide)

/-- The concrete observation table for the C4 witness: six replicates of
one perturbation. -/
def c4_obs : List ObsRow :=
  [{ pert_id := "p", cell_id := "c1", pert_dose := 1 },
   { pert_id := "p", cell_id := "c1", pert_dose := 2 },
   { pert_id := "p", cell_id := "c1", pert_dose := 3 },
   { pert_id := "p", cell_id := "c2", pert_dose := 1 },
   { pert_id := "p", cell_id := "c2", pert_dose := 2 },
   { pert_id := "p", cell_id := "c2", pert_dose := 3 }]

/-- The concrete reference table for the C4 witness. -/
def c4_ref : List RefRow := [{ pert_id := "p", canonical_smiles := "C" }]

/-- A concrete stand-in for the RDKit check in the C4 witness. -/
def c4_check (s : String) : Bool := s == "C"

/-- Witness for C4 on a concrete pipeline run. -/
theorem C4_retained_rows_valid_witness :
    mkSRow "p" "c1" 1 "C" ∈ pipeline c4_check c4_obs c4_ref
    ∧ ((mkSRow "p" "c1" 1 "C").canonical_smiles ∉ (["-666", "restricted", "nan"] : List String)
      ∧ c4_check (mkSRow "p" "c1" 1 "C").canonical_smiles = true
      ∧ 6 ≤ countSmiles (pipeline c4_check c4_obs c4_ref) (mkSRow "p" "c1" 1 "C").canonical_smiles
      ∧ (mkSRow "p" "c1" 1 "C").pert_dose ≠ -666) :=
  ⟨by decide,
   C4_retained_rows_valid c4_check c4_obs c4_ref (mkSRow "p" "c1" 1 "C") (by decide)⟩

/-! ### C5: row counts along the pipeline -/

theorem filter_key_length_le_one {ref : List RefRow}
    (hnd : (ref.map (fun m => m.pert_id)).Nodup) (k : String) :
    (ref.filter (fun m => m.pert_id == k)).length ≤ 1 := by
  induction ref with
  | nil => simp
  | cons m t ih =>
    rw [List.map_cons, List.nodup_cons] at hnd
    by_cases hm : (m.pert_id == k) = true
    · have ht : t.filter (fun x => x.pert_id == k) = [] := by
        rw [List.filter_eq_nil_iff]
        intro a ha hak
        apply hnd.1
        rw [List.mem_map]
        refine ⟨a, ha, ?_⟩
        have h1 : a.pert_id = k := by simpa using hak
        have h2 : m.pert_id = k := by simpa using hm
        rw [h1, h2]
      simp [List.filter_cons, hm, ht]
    · rw [Bool.not_eq_true] at hm
      simp only [List.filter_cons, hm]
      exact ih hnd.2

theorem mergeRow_length_one (ref : List RefRow) (o : ObsRow)
    (hnd : (ref.map (fun m => m.pert_id)).Nodup) :
    (mergeRow ref o).length = 1 := by
  cases hfil : ref.filter (fun m => m.pert_id == o.pert_id) with
  | nil => simp [mergeRow, hfil]
  | cons a as =>
    have hle := filter_key_length_le_one hnd o.pert_id
    rw [hfil] at hle
    simp only [List.length_cons] at hle
    have has : as.length = 0 := by omega
    simp [mergeRow, hfil, List.length_map, has]

theorem leftMerge_length (obs : List ObsRow) (ref : List RefRow)
    (hnd : (ref.map (fun m => m.pert_id)).Nodup) :
    (leftMerge obs ref).length = obs.length := by
  induction obs with
  | nil => rfl
  | cons o t ih =>
    simp only [leftMerge, List.flatMap_cons, List.length_append, List.length_cons] at ih ⊢
    rw [mergeRow_length_one ref o hnd, ih]
    omega

theorem leftMerge_preserves (obs : List ObsRow) (ref : List RefRow) :
    ∀ o ∈ obs, ∃ x ∈ leftMerge obs ref, x.toObsRow = o := by
  intro o ho
  have hx : ∃ x ∈ mergeRow ref o, x.toObsRow = o := by
    cases hfil : ref.filter (fun m => m.pert_id == o.pert_id) with
    | nil =>
      exact ⟨{ toObsRow := o, canonical_smiles := none }, by simp [mergeRow, hfil], rfl⟩
    | cons a as =>
      refine ⟨{ toObsRow := o, canonical_smiles := some a.canonical_smiles }, ?_, rfl⟩
      simp only [mergeRow, hfil]
      exact List.mem_map_of_mem _ (List.mem_cons_self a as)
  obtain ⟨x, hxm, hxo⟩ := hx
  exact ⟨x, List.mem_flatMap.mpr ⟨o, ho, hxm⟩, hxo⟩

theorem pipeline_length_le_merge (check_smiles : String → Bool) (obs : List ObsRow)
    (ref : List RefRow) :
    (pipeline check_smiles obs ref).length ≤ (leftMerge obs ref).length := by
  rw [pipeline, removeInvalidSmilesRows, filterReplicates, filterDose, filterInvalidSmiles]
  calc (List.filter _ (List.filter _ (List.filter _ (List.filter _ ((leftMerge obs ref).map toStrRow))))).length
      ≤ (List.filter _ (List.filter _ (List.filter _ ((leftMerge obs ref).map toStrRow)))).length :=
        List.length_filter_le _ _
    _ ≤ (List.filter _ (List.filter _ ((leftMerge obs ref).map toStrRow))).length :=
        List.length_filter_le _ _
    _ ≤ (List.filter _ ((leftMerge obs ref).map toStrRow)).length := List.length_filter_le _ _
    _ ≤ ((leftMerge obs ref).map toStrRow).length := List.length_filter_le _ _
    _ = (leftMerge obs ref).length := List.length_map _ _

/-- C5 counterexample: with a reference table whose join key "p" occurs
twice, the left merge of a single observation row yields two rows — the
join does not preserve the row count when reference keys repeat, so the
claimed for-every-input non-increase fails. -/
theorem C5_counterexample_duplicate_ref_keys :
    ([({ pert_id := "p", cell_id := "c", pert_dose := 1 } : ObsRow)].length = 1)
    ∧ (leftMerge [{ pert_id := "p", cell_id := "c", pert_dose := 1 }]
        [{ pert_id := "p", canonical_smiles := "S1" },
         { pert_id := "p", canonical_smiles := "S2" }]).length = 2 := by
  decide

/-- C5 (amended): the left join emits every original row at least once
(attaching a null SMILES where unmatched), and when the reference join
keys are unique it preserves the row count exactly; every filter step only
shrinks the table, so under that uniqueness the row count is monotonically
non-increasing from load to write. Without uniqueness of the reference
keys, the join can emit several rows per original row. -/
theorem C5_row_count_monotone (check_smiles : String → Bool) (obs : List ObsRow)
    (ref : List RefRow) (hnd : (ref.map (fun m => m.pert_id)).Nodup) :
    (leftMerge obs ref).length = obs.length
    ∧ (pipeline check_smiles obs ref).length ≤ obs.length
    ∧ ∀ o ∈ obs, ∃ x ∈ leftMerge obs ref, x.toObsRow = o := by
  have hlen := leftMerge_length obs ref hnd
  refine ⟨hlen, ?_, leftMerge_preserves obs ref⟩
  calc (pipeline check_smiles obs ref).length
      ≤ (leftMerge obs ref).length := pipeline_length_le_merge check_smiles obs ref
    _ = obs.length := hlen

/-- Witness for the amended C5 on the concrete C4 tables (whose reference
keys are unique). -/
theorem C5_row_count_monotone_witness :
    ((c4_ref.map (fun m => m.pert_id)).Nodup)
    ∧ (leftMerge c4_obs c4_ref).length = c4_obs.length
    ∧ (pipeline c4_check c4_obs c4_ref).length ≤ c4_obs.length :=
  ⟨by decide,
   (C5_row_count_monotone c4_check c4_obs c4_ref (by decide)).1,
   (C5_row_count_monotone c4_check c4_obs c4_ref (by decide)).2.1⟩

/-! ### C6: unmatched join keys become missing values and are dropped -/

/-- C6: a row whose join key matches zero reference rows comes out of the
left merge with a missing (`none`) SMILES, the `astype('str')` step turns
that missing value into exactly the string "nan", and the sentinel filter
retains no row whose SMILES is "nan" — the missing value is treated as
invalid exactly like the enumerated sentinels, never kept as a category. -/
theorem C6_unmatched_key_dropped (obs : List ObsRow) (ref : List RefRow) (o : ObsRow)
    (ho : o ∈ obs) (hnomatch : ∀ m ∈ ref, ¬ m.pert_id = o.pert_id) :
    ({ toObsRow := o, canonical_smiles := none } : MergedRow) ∈ leftMerge obs ref
    ∧ (toStrRow { toObsRow := o, canonical_smiles := none }).canonical_smiles = "nan"
    ∧ ∀ x ∈ filterInvalidSmiles ((leftMerge obs ref).map toStrRow),
        ¬ x.canonical_smiles = "nan" := by
  have hfil : ref.filter (fun m => m.pert_id == o.pert_id) = [] := by
    rw [List.filter_eq_nil_iff]
    intro m hm hbeq
    exact hnomatch m hm (by simpa using hbeq)
  refine ⟨?_, rfl, ?_⟩
  · apply List.mem_flatMap.mpr
    refine ⟨o, ho, ?_⟩
    simp [mergeRow, hfil]
  · intro x hx hnan
    rw [filterInvalidSmiles, List.mem_filter] at hx
    have hbad : invalid_smiles x = true := by
      apply isin_iff.mpr
      rw [hnan]
      simp
    rw [hbad] at hx
    exact absurd hx.2 (by decide)

/-- The concrete observation table for the C6 witness: its only row has a
join key absent from the reference table `c4_ref`. -/
def c6_obs : List ObsRow := [{ pert_id := "q", cell_id := "c", pert_dose := 1 }]

/-- Witness for C6 on concrete tables. -/
theorem C6_unmatched_key_dropped_witness :
    ({ pert_id := "q", cell_id := "c", pert_dose := 1 } : ObsRow) ∈ c6_obs
    ∧ (∀ m ∈ c4_ref, ¬ m.pert_id = "q")
    ∧ ({ toObsRow := { pert_id := "q", cell_id := "c", pert_dose := 1 },
          canonical_smiles := none } : MergedRow) ∈ leftMerge c6_obs c4_ref :=
  ⟨by decide, by decide,
   (C6_unmatched_key_dropped c6_obs c4_ref
     { pert_id := "q", cell_id := "c", pert_dose := 1 } (by decide) (by decide)).1⟩

/-! ### C7: batch embedding loop error handling -/

theorem runBatch_characterisation (compute : String → String → Except String Unit)
    (ds : List (String × String)) (st : BatchState) :
    ds.foldl (process_dataset compute) st =
      { results := st.results ++ ds.map (fun d => (d.1, run_ok (compute d.1 d.2))),
        logs := st.logs ++ ds.flatMap (fun d =>
          match compute d.1 d.2 with
          | Except.ok _ => []
          | Except.error e => ["Error processing " ++ d.1 ++ ": " ++ e]) } := by
  induction ds generalizing st with
  | nil => simp
  | cons d t ih =>
    rw [List.foldl_cons, ih]
    cases h : compute d.1 d.2 with
    | ok u => simp [process_dataset, run_ok, h, List.append_assoc]
    | error e => simp [process_dataset, run_ok, h, List.append_assoc]

/-- C7: in the batch embedding run, every dataset of the list is attempted
and its recorded outcome depends only on its own computation (so a failure
of one dataset neither aborts the loop nor changes the processing of any
other dataset), and for a dataset whose computation raises, a message
containing the dataset name and the exception text is logged. -/
theorem C7_batch_loop_continues (compute : String → String → Except String Unit)
    (ds : List (String × String)) (d : String × String) (e : String)
    (hd : d ∈ ds) (he : compute d.1 d.2 = Except.error e) :
    (runBatch compute ds).results = ds.map (fun x => (x.1, run_ok (compute x.1 x.2)))
    ∧ ("Error processing " ++ d.1 ++ ": " ++ e) ∈ (runBatch compute ds).logs := by
  rw [runBatch, runBatch_characterisation compute ds ⟨[], []⟩]
  refine ⟨by simp, ?_⟩
  simp only [List.nil_append]
  apply List.mem_flatMap.mpr
  refine ⟨d, hd, ?_⟩
  simp [he]

/-- A concrete stand-in computation for the C7 witness: it raises exactly
on the dataset named "bad". -/
def c7_compute (name _key : String) : Except String Unit :=
  if name == "bad" then Except.error "boom" else Except.ok ()

/-- The concrete dataset list for the C7 witness. -/
def c7_datasets : List (String × String) :=
  [("lincs_smiles.h5ad", "SMILES"), ("bad", "SMILES"), ("sciplex_complete.h5ad", "SMILES")]

/-- Witness for C7 on a concrete batch run with one failing dataset. -/
theorem C7_batch_loop_continues_witness :
    ("bad", "SMILES") ∈ c7_datasets
    ∧ c7_compute "bad" "SMILES" = Except.error "boom"
    ∧ (runBatch c7_compute c7_datasets).results
        = c7_datasets.map (fun x => (x.1, run_ok (c7_compute x.1 x.2)))
    ∧ ("Error processing " ++ "bad" ++ ": " ++ "boom") ∈ (runBatch c7_compute c7_datasets).logs :=
  ⟨by decide, rfl,
   (C7_batch_loop_continues c7_compute c7_datasets ("bad", "SMILES") "boom" (by decide) rfl).1,
   (C7_batch_loop_continues c7_compute c7_datasets ("bad", "SMILES") "boom" (by decide) rfl).2⟩
